import Mathlib

/-!
# Verification of the boefje scheduler (mula)

Shallow embedding of `scheduler/schedulers/schedulers/boefje.py`
(`BoefjeScheduler` and `BoefjePQ`) and of the narrow store/queue interfaces
it relies on.  External services (katalogus, octopoes, bytes, the ranker)
are passed in as explicit oracle fields of environment records; time is an
integer number of seconds; datetimes are integers.

Conventions:
- Python `None` becomes `Option.none`.
- `datetime.now(timezone.utc)` becomes an explicit `now : Int` input.
- `timedelta(seconds=s)` is `s`; `timedelta(minutes=m)` is `60 * m`.
- The content hash of a `BoefjeTask` (md5 of boefje id, input ooi and
  organization in the models module, which is outside the embedded sources)
  is modelled as the triple of those fields: a stable injective fingerprint.
-/

namespace Mula

/-- Task lifecycle status (`models.TaskStatus`). -/
inductive TaskStatus where
  | pending
  | queued
  | dispatched
  | running
  | completed
  | failed
  | cancelled
deriving DecidableEq, Repr

/-- `models.ScanProfile`: declared clearance of an OOI. -/
structure ScanProfile where
  level : Option Int
deriving DecidableEq, Repr

/-- `models.OOI`: a target object. -/
structure OOI where
  primary_key : String
  object_type : String
  scan_profile : Option ScanProfile
deriving DecidableEq, Repr

/-- `models.ooi.RunOn`: mutation kinds a boefje is restricted to. -/
inductive RunOn where
  | create
  | update
deriving DecidableEq, Repr

/-- `models.Plugin`: a scanner (boefje) definition from the katalogus.
Python `run_on = None` and `run_on = []` behave identically under the
truthiness test in `process_mutations`, so both are modelled as `[]`. -/
structure Plugin where
  id : String
  name : String
  type : String
  enabled : Bool
  scan_level : Option Int
  consumes : List String
  interval : Option Int
  run_on : List RunOn
deriving DecidableEq, Repr

/-- `models.Boefje`: the scanner reference embedded in a task payload,
built via `models.Boefje.model_validate(plugin.model_dump())`. -/
structure Boefje where
  id : String
  name : String
deriving DecidableEq, Repr

def mkBoefje (p : Plugin) : Boefje :=
  { id := p.id, name := p.name }

/-- UUIDs are modelled as strings. -/
abbrev Uuid := String

/-- `models.BoefjeTask`: the task payload. -/
structure BoefjeTask where
  id : Uuid
  boefje : Boefje
  input_ooi : Option String
  organization : String
  deduplication_key : Option Uuid
deriving DecidableEq, Repr

/-- The content-hash type: (boefje id, input ooi, organization). -/
abbrev THash := String × Option String × String

/-- Modelled content hash of a `BoefjeTask` (`models.BoefjeTask.hash`,
outside the embedded sources): a stable fingerprint of the semantic
payload, here the identifying triple itself. -/
def BoefjeTask.hash (bt : BoefjeTask) : THash :=
  (bt.boefje.id, bt.input_ooi, bt.organization)

/-- `models.Task`: the task-store record. -/
structure Task where
  id : Uuid
  scheduler_id : String
  organisation : String
  type : String
  hash : THash
  data : BoefjeTask
  status : TaskStatus
  priority : Int
  modified_at : Int
deriving DecidableEq, Repr

/-- The last-run record returned by the bytes (results) service. -/
structure RunRecord where
  id : String
  started_at : Option Int
  ended_at : Option Int
deriving DecidableEq, Repr

/-- `models.Schedule` (the fields used by the rescheduling loop). -/
structure Schedule where
  id : String
  scheduler_id : String
  organisation : String
  data : BoefjeTask
  enabled : Bool
deriving DecidableEq, Repr

/-- Scheduler configuration: the global default grace period in seconds
(`ctx.config.pq_grace_period`). -/
structure SchedulerConfig where
  pq_grace_period : Int
deriving DecidableEq, Repr

/-! ## Permission evaluator (`BoefjeScheduler.has_boefje_permission_to_run`) -/

/-- `BoefjeScheduler.has_boefje_permission_to_run(boefje, ooi)`, translated
check for check; `ooi = none` models the Python `None` argument. -/
def has_boefje_permission_to_run (boefje : Plugin) (ooi : Option OOI) : Bool :=
  if boefje.enabled = false then false
  else
    match boefje.scan_level with
    | none => false
    | some boefje_scan_level =>
      match ooi with
      | none => true
      | some o =>
        match o.scan_profile with
        | none => false
        | some sp =>
          match sp.level with
          | none => false
          | some ooi_scan_level =>
            if boefje_scan_level > ooi_scan_level then false else true

/-! ## Grace period, stalled and still-running checks -/

/-- The timeout computed at the start of
`BoefjeScheduler.has_boefje_task_grace_period_passed`: the plugin interval
in minutes when defined and positive, the global default (seconds)
otherwise. -/
def graceTimeout (cfg : SchedulerConfig) (plugin : Option Plugin) : Int :=
  match plugin with
  | some p =>
    match p.interval with
    | some i => if i > 0 then 60 * i else cfg.pq_grace_period
    | none => cfg.pq_grace_period
  | none => cfg.pq_grace_period

/-- `BoefjeScheduler.has_boefje_task_grace_period_passed`.  `plugin` is the
result of the katalogus lookup for `(task.boefje.id, task.organization)`. -/
def has_boefje_task_grace_period_passed (now : Int) (cfg : SchedulerConfig)
    (plugin : Option Plugin) (task_db : Option Task) (task_bytes : Option RunRecord) : Bool :=
  let timeout := graceTimeout cfg plugin
  if (match task_db with
      | some t => decide (now - t.modified_at < timeout)
      | none => false) then
    false
  else if (match task_bytes with
      | some b =>
        match b.ended_at with
        | some e => decide (now - e < timeout)
        | none => false
      | none => false) then
    false
  else
    true

/-- `BoefjeScheduler.has_boefje_task_stalled`.  `Task.modified_at` is
non-optional in the model, so the source's `modified_at is not None`
guard is always satisfied. -/
def has_boefje_task_stalled (now : Int) (cfg : SchedulerConfig)
    (task_db : Option Task) : Bool :=
  match task_db with
  | some t =>
    (decide (t.status = .dispatched) || decide (t.status = .running)) &&
      decide (now > t.modified_at + cfg.pq_grace_period)
  | none => false

/-- `BoefjeScheduler.has_boefje_task_started_running`.  The Python
function returns a bool or raises `RuntimeError` on the
finished-but-no-bytes inconsistency; the error is an `Except.error`. -/
def has_boefje_task_started_running (now : Int) (cfg : SchedulerConfig)
    (task_db : Option Task) (task_bytes : Option RunRecord) : Except Unit Bool :=
  let inconsistent : Bool :=
    match task_bytes, task_db with
    | none, some t =>
      (decide (t.status = .completed) || decide (t.status = .failed)) &&
        decide (t.modified_at > now - cfg.pq_grace_period)
    | _, _ => false
  if (match task_db with
      | some t => decide (t.status ≠ .failed ∧ t.status ≠ .completed)
      | none => false) then
    .ok true
  else if inconsistent then
    .error ()
  else if (match task_bytes with
      | some b => b.ended_at.isNone && b.started_at.isSome
      | none => false) then
    .ok true
  else
    .ok false

/-! ## Katalogus duplicate configs and the push environment -/

/-- An entry of `config.duplicates`: a linked organisation. -/
structure DupConfig where
  organisation_id : String
deriving DecidableEq, Repr

/-- A katalogus config as returned by `get_configs(..., with_duplicates=True)`. -/
structure KatConfig where
  organisation_id : String
  duplicates : List DupConfig
deriving DecidableEq, Repr

/-- The external world seen by one `push_boefje_task` call: current time,
configuration, and the responses of the external services it consults.
`plugin` is `katalogus.get_plugin_by_id_and_org_id(bt.boefje.id,
bt.organization)` (the same call is made by the grace-period check and by
`is_boefje_in_other_orgs`); `task_bytes` is `bytes.get_last_run_boefje(...)`;
`configs` is `katalogus.get_configs(...)`; `orgClients` is
`octopoes.get_object_clients(...)`; `rank` is the ranker; `allow` models
the queue's capacity admission; `freshId` and `normId` model `uuid.uuid4()`
draws. -/
structure PushEnv where
  now : Int
  cfg : SchedulerConfig
  plugin : Option Plugin
  task_bytes : Option RunRecord
  configs : List KatConfig
  orgClients : List (String × OOI)
  rank : Task → Int
  allow : Task → Bool
  freshId : String → Uuid
  normId : Uuid

/-- Association-list lookup for the `get_object_clients` result. -/
def lookupOrg (l : List (String × OOI)) (org : String) : Option OOI :=
  (l.find? (fun p => decide (p.1 = org))).map (fun p => p.2)

/-- Construction of a `models.Task` from a payload as done at
`push_boefje_task` (and identically inside `is_boefje_in_other_orgs`),
including the `task.priority = self.ranker.rank(task)` assignment. -/
def mkTask (env : PushEnv) (bt : BoefjeTask) : Task :=
  let t : Task :=
    { id := bt.id
      scheduler_id := "boefje"
      organisation := bt.organization
      type := "boefje"
      hash := bt.hash
      data := bt
      status := .pending
      priority := 0
      modified_at := env.now }
  { t with priority := env.rank t }

/-- The sibling payload and task built inside the loop of
`is_boefje_in_other_orgs` for one linked organisation: the payload keeps
the original input OOI, switches to the linked organisation, and carries
`deduplication_key = boefje_task.id`. -/
def fanSibling (env : PushEnv) (boefje : Plugin) (boefje_task : BoefjeTask)
    (config : DupConfig) : Task :=
  mkTask env
    { id := env.freshId config.organisation_id
      boefje := mkBoefje boefje
      input_ooi := boefje_task.input_ooi
      organization := config.organisation_id
      deduplication_key := some boefje_task.id }

/-- One iteration of the loop over `configs[0].duplicates` in
`is_boefje_in_other_orgs`: skip the original organisation, skip linked
organisations where the OOI no longer exists, skip linked organisations
failing the permission check, otherwise append the sibling task. -/
def fanStep (env : PushEnv) (boefje : Plugin) (boefje_task : BoefjeTask)
    (tasks : List Task) (config : DupConfig) : List Task :=
  if config.organisation_id = boefje_task.organization then tasks
  else
    match lookupOrg env.orgClients config.organisation_id with
    | none => tasks
    | some ooi =>
      if has_boefje_permission_to_run boefje (some ooi) = false then tasks
      else tasks ++ [fanSibling env boefje boefje_task config]

/-- `BoefjeScheduler.is_boefje_in_other_orgs`: build one sibling task per
linked organisation (from `configs[0].duplicates`) that is not the task's
own organisation, still has the input OOI, and passes the permission
check; each sibling carries `deduplication_key = boefje_task.id`. -/
def is_boefje_in_other_orgs (env : PushEnv) (boefje_task : BoefjeTask) : List Task :=
  match boefje_task.input_ooi with
  | none => []
  | some _ =>
    match env.configs with
    | [] => []
    | c0 :: _ =>
      if env.orgClients.isEmpty then []
      else
        match env.plugin with
        | none => []
        | some boefje =>
          c0.duplicates.foldl (fanStep env boefje boefje_task) []

/-! ## Task store and queue -/

/-- Modelled from the spec: `task_store.get_latest_task_by_hash` (the
storage layer is outside the embedded sources) returns the most recently
stored task with the given content hash; the store list is kept in
insertion order, so the latest is the last match. -/
def getLatestTaskByHash (store : List Task) (h : THash) : Option Task :=
  store.reverse.find? (fun t => decide (t.hash = h))

/-- A status counting as an active queue entry. -/
def activeStatus (s : TaskStatus) : Bool :=
  decide (s = .queued) || decide (s = .dispatched) || decide (s = .running)

/-- Is this task an active entry for content hash `hsh`? -/
def activeWithHash (hsh : THash) (t : Task) : Bool :=
  decide (t.hash = hsh) && activeStatus t.status

/-- Modelled from the spec: `Scheduler.push_item_to_queue_with_timeout` down
to `PriorityQueue.push` (both outside the embedded sources).  Per spec
§4.1 push "inserts unless an equivalent active entry exists" and "fails
with `NotAllowedError`" on a duplicate or capacity refusal; a refused push
leaves the stores untouched (the error is caught and logged by
`push_boefje_task`), an accepted push records the task as QUEUED. -/
def queuePush (env : PushEnv) (store : List Task) (item : Task) : List Task :=
  if store.any (activeWithHash item.hash) then store
  else if env.allow item = false then store
  else store ++ [{ item with status := .queued, modified_at := env.now }]

/-- `BoefjeScheduler.push_item_to_queue` (the override in the embedded
source): enforce that the outer task id equals the embedded payload id,
minting a fresh id for both when they differ, then delegate to the queue
push. -/
def push_item_to_queue (env : PushEnv) (store : List Task) (item : Task) : List Task :=
  let item :=
    if item.id ≠ item.data.id then
      { item with id := env.normId, data := { item.data with id := env.normId } }
    else item
  queuePush env store item

/-- The `task_db.status = FAILED; task_store.update_task(task_db)` pair in
the stalled branch of `push_boefje_task`: overwrite the stored record with
the fetched record, status forced to FAILED. -/
def markTaskFailed (store : List Task) (t : Task) : List Task :=
  store.map (fun u => if u.id = t.id then { t with status := .failed } else u)

/-- Outcome of one `push_boefje_task` call. -/
inductive PushResult where
  | droppedAlreadyQueued
  | stoppedGrace
  | inconsistency
  | stoppedStillRunning
  | pushed (ts : List Task)
deriving DecidableEq, Repr

/-- The stalled branch of `push_boefje_task`: when the stored task has
stalled, it is marked FAILED both in the store (`update_task`) and in the
in-memory `task_db` object that the subsequent still-running check sees.
Returns the updated store and the updated `task_db`. -/
def applyStalled (env : PushEnv) (store : List Task) (task_db : Option Task) :
    List Task × Option Task :=
  if has_boefje_task_stalled env.now env.cfg task_db then
    match task_db with
    | some t => (markTaskFailed store t, some { t with status := TaskStatus.failed })
    | none => (store, none)
  else (store, task_db)

/-- The `boefje_task.deduplication_key = boefje_task.id` assignment of
`push_boefje_task`, applied exactly when the fan-out produced siblings. -/
def fanTagged (env : PushEnv) (boefje_task : BoefjeTask) : BoefjeTask :=
  if (is_boefje_in_other_orgs env boefje_task).isEmpty then boefje_task
  else { boefje_task with deduplication_key := some boefje_task.id }

/-- The tail of `push_boefje_task` once all checks have passed: fan out to
other organisations, tag the original payload with the deduplication key
when siblings exist, build and rank the original task, and push the whole
batch (siblings first, original last) under the queue lock. -/
def pushCandidate (env : PushEnv) (boefje_task : BoefjeTask) (store1 : List Task) :
    List Task × PushResult :=
  let tasks :=
    is_boefje_in_other_orgs env boefje_task ++ [mkTask env (fanTagged env boefje_task)]
  (tasks.foldl (fun st it => push_item_to_queue env st it) store1, .pushed tasks)

/-- The stalled and still-running stages of `push_boefje_task` (everything
after the already-queued and grace-period checks). -/
def pushChecked (env : PushEnv) (boefje_task : BoefjeTask) (store : List Task)
    (task_db : Option Task) : List Task × PushResult :=
  let s := applyStalled env store task_db
  match has_boefje_task_started_running env.now env.cfg s.2 env.task_bytes with
  | .error _ => (s.1, .inconsistency)
  | .ok true => (s.1, .stoppedStillRunning)
  | .ok false => pushCandidate env boefje_task s.1

/-- `BoefjeScheduler.push_boefje_task`: the push pipeline.  Returns the
updated task store together with the outcome.  The final loop over
`tasks` runs under `self.queue.lock` in the source; the whole call is one
atomic step of the transition system below, which is what that lock
guarantees for the rank-and-push batch. -/
def push_boefje_task (env : PushEnv) (boefje_task : BoefjeTask) (store : List Task) :
    List Task × PushResult :=
  let task_db := getLatestTaskByHash store boefje_task.hash
  if (match task_db with
      | some t => decide (t.status = TaskStatus.queued)
      | none => false) then
    (store, .droppedAlreadyQueued)
  else if has_boefje_task_grace_period_passed env.now env.cfg env.plugin task_db
      env.task_bytes = false then
    (store, .stoppedGrace)
  else
    pushChecked env boefje_task store task_db

/-! ## The transition system of pushes and pops -/

/-- One scheduler-side operation on the shared task store: a full
`push_boefje_task` call (atomic for the final batch thanks to the queue
lock), or a `BoefjePQ.pop` (under `with_lock`): the popped subset of
queued tasks is bulk-updated to DISPATCHED. -/
inductive SchedOp where
  | push (env : PushEnv) (bt : BoefjeTask)
  | pop (ids : List Uuid)

/-- Apply one operation to the task store. -/
def applyOp (store : List Task) : SchedOp → List Task
  | .push env bt => (push_boefje_task env bt store).1
  | .pop ids =>
    store.map (fun t =>
      if t.id ∈ ids ∧ t.status = .queued then { t with status := .dispatched } else t)

/-- Run a sequence of operations from the empty store. -/
def runOps (ops : List SchedOp) : List Task :=
  ops.foldl applyOp []

/-- Does this task count as an in-flight (QUEUED or DISPATCHED) entry for
content hash `h`? -/
def qdWithHash (h : THash) (t : Task) : Bool :=
  decide (t.hash = h) &&
    (decide (t.status = TaskStatus.queued) || decide (t.status = TaskStatus.dispatched))

/-- At most one task with any given content hash is QUEUED or DISPATCHED. -/
def dedupInvariant (store : List Task) : Prop :=
  ∀ h : THash, store.countP (qdWithHash h) ≤ 1


/-! ## Scan-profile mutations (`BoefjeScheduler.process_mutations`) -/

/-- `models.MutationOperationType`. -/
inductive MutationOperationType where
  | create
  | update
  | delete
deriving DecidableEq, Repr

/-- `models.ScanProfileMutation` (the fields used by the handler). -/
structure ScanProfileMutation where
  operation : MutationOperationType
  primary_key : String
  value : Option OOI
  client_id : String
deriving DecidableEq, Repr

/-- The external world of one `process_mutations` call:
`katalogus.get_boefjes_by_type_and_org_id` and the `uuid.uuid4()` draws
for the new task payloads (keyed by boefje id). -/
structure MutationEnv where
  boefjesForType : String -> String -> List Plugin
  newTaskId : String -> Uuid

/-- Modelled from the spec: the DELETE branch asks the priority-queue
store (outside the embedded sources) for the scheduler's queued items
whose payload field `input_ooi` equals the deleted target's primary key
(`filters.Filter(column="data", field="input_ooi", operator="eq", ...)`). -/
def deleteFilter (pk : String) (t : Task) : Bool :=
  decide (t.scheduler_id = "boefje") && decide (t.status = TaskStatus.queued) &&
    decide (t.data.input_ooi = some pk)

/-- One iteration of the DELETE cancellation loop:
`task = task_store.get_task(item.id)`; skip when absent; otherwise set the
status to CANCELLED and `update_task` (overwrite the record with that id). -/
def cancelOne (st : List Task) (item : Task) : List Task :=
  match st.find? (fun t => decide (t.id = item.id)) with
  | none => st
  | some task =>
    st.map (fun t => if t.id = item.id then { task with status := TaskStatus.cancelled } else t)

/-- The whole DELETE branch of `process_mutations`: fetch the matching
queued items, then cancel each one in the task store. -/
def cancelMatching (pk : String) (store : List Task) : List Task :=
  (store.filter (deleteFilter pk)).foldl cancelOne store

/-- The CREATE/UPDATE branch of `process_mutations`: for every boefje
registered for the OOI's type and organisation, keep it when the
permission check passes and, when the boefje declares a (non-empty)
`run_on` set, when the mutation operation is a member; each kept boefje
yields a candidate payload paired with its `create_schedule` flag
(`False` exactly when `run_on` is declared). -/
def mutationCandidates (env : MutationEnv) (mutation : ScanProfileMutation) (ooi : OOI) :
    List (BoefjeTask × Bool) :=
  (env.boefjesForType ooi.object_type mutation.client_id).foldr
    (fun boefje acc =>
      if has_boefje_permission_to_run boefje (some ooi) = false then acc
      else
        let cs_rt : Bool × Bool :=
          if boefje.run_on.isEmpty then (true, true)
          else
            (false,
              match mutation.operation with
              | .create => boefje.run_on.contains RunOn.create
              | .update => boefje.run_on.contains RunOn.update
              | .delete => false)
        if cs_rt.2 = false then acc
        else
          ({ id := env.newTaskId boefje.id
             boefje := mkBoefje boefje
             input_ooi := some ooi.primary_key
             organization := mutation.client_id
             deduplication_key := none }, cs_rt.1) :: acc) []

/-- `BoefjeScheduler.process_mutations`: returns the task store after the
handler and the list of candidate payloads it submits to the push
pipeline (empty for DELETE and for a missing mutation value). -/
def process_mutations (env : MutationEnv) (mutation : ScanProfileMutation)
    (store : List Task) : List Task × List (BoefjeTask × Bool) :=
  match mutation.value with
  | none => (store, [])
  | some ooi =>
    if mutation.operation = .delete then (cancelMatching ooi.primary_key store, [])
    else
      if (env.boefjesForType ooi.object_type mutation.client_id).isEmpty then (store, [])
      else (store, mutationCandidates env mutation ooi)


/-! ## Rescheduling (`BoefjeScheduler.process_rescheduling`) -/

/-- The external world of one `process_rescheduling` cycle:
`katalogus.get_plugin_by_id_and_org_id` (the in-loop `plugins` dict is a
pure memoisation of this lookup and therefore semantically transparent),
`octopoes.get_objects(org, references)` which may fail with a
`ReadTimeout` (`Except.error`), and the `uuid.uuid4()` draws for rebuilt
payloads, keyed by schedule id. -/
structure ReschedEnv where
  katalogus : String -> String -> Option Plugin
  octopoes : String -> List String -> Except Unit (List OOI)
  freshTaskId : String -> Uuid

/-- Insert one OOI reference under its organisation, as the
`oois[organization][input_ooi] = None` dict writes do: organisations in
first-seen order, references deduplicated per organisation. -/
def addRef (acc : List (String × List String)) (org : String) (ref : String) :
    List (String × List String) :=
  if acc.any (fun p => decide (p.1 = org)) then
    acc.map (fun p =>
      if p.1 = org then (p.1, if ref ∈ p.2 then p.2 else p.2 ++ [ref]) else p)
  else acc ++ [(org, [ref])]

/-- The first loop of `process_rescheduling`: collect all OOI references
per organisation from the due schedules. -/
def collectRefs (schedules : List Schedule) : List (String × List String) :=
  schedules.foldl (fun acc s =>
    match s.data.input_ooi with
    | some r => addRef acc s.data.organization r
    | none => acc) []

/-- The second loop of `process_rescheduling`: one octopoes call per
organisation.  The source handles `ReadTimeout` with `return`, which
abandons the whole cycle, so any error yields `none` (no schedule of any
organisation is processed afterwards). -/
def fetchOOIs (env : ReschedEnv) : List (String × List String) → Option (List (String × List OOI))
  | [] => some []
  | a :: rest =>
    match env.octopoes a.1 a.2 with
    | .error _ => none
    | .ok oois => (fetchOOIs env rest).map (fun r => (a.1, oois) :: r)

/-- Reading `oois[org][pk]` after the fetch loop: `none` both when the
organisation was never fetched and when octopoes did not return the
reference (the dict value stays `None`). -/
def lookupOOI (fetched : List (String × List OOI)) (org : String) (pk : String) : Option OOI :=
  match fetched.find? (fun p => decide (p.1 = org)) with
  | none => none
  | some p => p.2.find? (fun o => decide (o.primary_key = pk))

/-- What the third loop of `process_rescheduling` does with one due
schedule: disable it (storing the updated record), log-and-skip it, or
hand a rebuilt payload to the push pipeline. -/
inductive SchedAction where
  | disableSchedule (s : Schedule)
  | skipWrongType (s : Schedule)
  | pushTask (bt : BoefjeTask)
deriving DecidableEq, Repr

/-- The per-schedule body of the third loop of `process_rescheduling`:
plugin still exists (else disable), still enabled (else disable), still a
boefje (else log and skip, without disabling), and, when the task
references an OOI: OOI still exists (else disable), its type still
consumed (else disable), permission still granted (else disable);
otherwise rebuild a fresh payload from the current plugin and OOI. -/
def processSchedule (kat : String -> String -> Option Plugin)
    (lookup : String -> String -> Option OOI) (freshId : Uuid)
    (schedule : Schedule) : SchedAction :=
  let boefje_task := schedule.data
  match kat boefje_task.boefje.id schedule.organisation with
  | none => .disableSchedule { schedule with enabled := false }
  | some plugin =>
    if plugin.enabled = false then .disableSchedule { schedule with enabled := false }
    else if plugin.type ≠ "boefje" then .skipWrongType schedule
    else
      match boefje_task.input_ooi with
      | none =>
        .pushTask
          { id := freshId, boefje := mkBoefje plugin, input_ooi := none,
            organization := schedule.organisation, deduplication_key := none }
      | some pk =>
        match lookup boefje_task.organization pk with
        | none => .disableSchedule { schedule with enabled := false }
        | some ooi =>
          if ¬ (ooi.object_type ∈ plugin.consumes) then
            .disableSchedule { schedule with enabled := false }
          else if has_boefje_permission_to_run plugin (some ooi) = false then
            .disableSchedule { schedule with enabled := false }
          else
            .pushTask
              { id := freshId, boefje := mkBoefje plugin, input_ooi := some ooi.primary_key,
                organization := schedule.organisation, deduplication_key := none }

/-- `BoefjeScheduler.process_rescheduling`: collect references, fetch them
per organisation (a read-timeout returns, abandoning the cycle), then
process each due schedule. -/
def process_rescheduling (env : ReschedEnv) (schedules : List Schedule) : List SchedAction :=
  if schedules.isEmpty then []
  else
    match fetchOOIs env (collectRefs schedules) with
    | none => []
    | some fetched =>
      schedules.map (fun s =>
        processSchedule env.katalogus (lookupOOI fetched) (env.freshTaskId s.id) s)

/-! ## Concrete instances used by witnesses and counterexamples -/

def plugin6 : Plugin :=
  { id := "bf6", name := "bf6", type := "boefje", enabled := true, scan_level := some 1,
    consumes := ["Hostname"], interval := none, run_on := [] }

def btC6a : BoefjeTask :=
  { id := "t-a", boefje := { id := "bf6", name := "bf6" }, input_ooi := some "oA",
    organization := "orgA", deduplication_key := none }

def btC6b : BoefjeTask :=
  { id := "t-b", boefje := { id := "bf6", name := "bf6" }, input_ooi := some "oB",
    organization := "orgB", deduplication_key := none }

def sC6a : Schedule :=
  { id := "s1", scheduler_id := "boefje", organisation := "orgA", data := btC6a,
    enabled := true }

def sC6b : Schedule :=
  { id := "s2", scheduler_id := "boefje", organisation := "orgB", data := btC6b,
    enabled := true }

def ooiC6a : OOI :=
  { primary_key := "oA", object_type := "Hostname", scan_profile := some { level := some 2 } }

def ooiC6b : OOI :=
  { primary_key := "oB", object_type := "Hostname", scan_profile := some { level := some 2 } }

/-- Rescheduling environment where fetching orgA's objects times out. -/
def envC6t : ReschedEnv :=
  { katalogus := fun _ _ => some plugin6,
    octopoes := fun org _ => if org = "orgA" then .error () else .ok [ooiC6b],
    freshTaskId := fun s => s ++ "-t" }

/-- The same environment with octopoes healthy for both organisations. -/
def envC6ok : ReschedEnv :=
  { katalogus := fun _ _ => some plugin6,
    octopoes := fun org _ => if org = "orgA" then .ok [ooiC6a] else .ok [ooiC6b],
    freshTaskId := fun s => s ++ "-t" }

def sC7 : Schedule :=
  { id := "s7", scheduler_id := "boefje", organisation := "orgA", data := btC6a,
    enabled := true }



/-- Does the loop of `is_boefje_in_other_orgs` produce a sibling for this
linked organisation?  (Not the task's own organisation, OOI still present
there, permission check passes.) -/
def fanAccept (env : PushEnv) (boefje : Plugin) (boefje_task : BoefjeTask)
    (config : DupConfig) : Bool :=
  !decide (config.organisation_id = boefje_task.organization) &&
    (match lookupOrg env.orgClients config.organisation_id with
     | some ooi => has_boefje_permission_to_run boefje (some ooi)
     | none => false)

def btC3 : BoefjeTask :=
  { id := "task-1", boefje := { id := "bf", name := "bf" }, input_ooi := some "ooi-1",
    organization := "orgA", deduplication_key := none }

def tC3 : Task :=
  { id := "old-1", scheduler_id := "boefje", organisation := "orgA", type := "boefje",
    hash := btC3.hash, data := btC3, status := .completed, priority := 0, modified_at := 0 }

def envC3 : PushEnv :=
  { now := 200, cfg := { pq_grace_period := 100 }, plugin := none,
    task_bytes := some { id := "run-1", started_at := some 10, ended_at := some 50 },
    configs := [], orgClients := [], rank := fun _ => 0, allow := fun _ => true,
    freshId := fun _ => "fresh", normId := "norm" }

def btC4 : BoefjeTask :=
  { id := "task-4", boefje := { id := "bf4", name := "bf4" }, input_ooi := some "ooi-4",
    organization := "orgA", deduplication_key := none }

def tC4 : Task :=
  { id := "old-4", scheduler_id := "boefje", organisation := "orgA", type := "boefje",
    hash := btC4.hash, data := btC4, status := .dispatched, priority := 0, modified_at := 0 }

def envC4 : PushEnv :=
  { now := 201, cfg := { pq_grace_period := 100 }, plugin := none,
    task_bytes := some { id := "run-4", started_at := some 5, ended_at := none },
    configs := [], orgClients := [], rank := fun _ => 0, allow := fun _ => true,
    freshId := fun _ => "fresh", normId := "norm" }

def envC4w : PushEnv :=
  { now := 201, cfg := { pq_grace_period := 100 }, plugin := none, task_bytes := none,
    configs := [], orgClients := [], rank := fun _ => 0, allow := fun _ => true,
    freshId := fun _ => "fresh", normId := "norm" }

def plugin8 : Plugin :=
  { id := "bf8", name := "bf8", type := "boefje", enabled := true, scan_level := some 2,
    consumes := ["Hostname"], interval := none, run_on := [] }

def btC8 : BoefjeTask :=
  { id := "task-8", boefje := { id := "bf8", name := "bf8" }, input_ooi := some "ooi-8",
    organization := "orgA", deduplication_key := none }

def envC8 : PushEnv :=
  { now := 0, cfg := { pq_grace_period := 100 }, plugin := some plugin8, task_bytes := none,
    configs := [{ organisation_id := "orgA",
                  duplicates := [{ organisation_id := "orgB" }, { organisation_id := "orgC" }] }],
    orgClients :=
      [("orgB", { primary_key := "ooi-8", object_type := "Hostname",
                  scan_profile := some { level := some 3 } }),
       ("orgC", { primary_key := "ooi-8", object_type := "Hostname",
                  scan_profile := some { level := some 1 } })],
    rank := fun _ => 0, allow := fun _ => true, freshId := fun s => s ++ "-sib",
    normId := "norm" }

end Mula

namespace Mula

/-! ## Claim theorems: permission evaluator -/

/-- **C2.** The permission evaluator returns `true` exactly when the
scanner is enabled, has a defined minimum scan level, and either the
target is absent, or the target carries a scan profile with a defined
level at least the scanner's minimum.  The definition itself is the
source's short-circuit cascade in the source's order (disabled, no
scanner level, absent target, no profile, no profile level, level
comparison). -/
theorem boefje_permission_characterization (boefje : Plugin) (ooi : Option OOI) :
    has_boefje_permission_to_run boefje ooi = true ↔
      boefje.enabled = true ∧
        ∃ ls, boefje.scan_level = some ls ∧
          (ooi = none ∨
            ∃ o sp lt, ooi = some o ∧ o.scan_profile = some sp ∧
              sp.level = some lt ∧ ls ≤ lt) := by
  unfold has_boefje_permission_to_run
  constructor
  · intro h
    by_cases he : boefje.enabled = false
    · simp [he] at h
    · have he' : boefje.enabled = true := by
        cases hb : boefje.enabled
        · exact absurd hb he
        · rfl
      refine ⟨he', ?_⟩
      simp only [he'] at h
      cases hsl : boefje.scan_level with
      | none => simp [hsl] at h
      | some ls =>
        refine ⟨ls, rfl, ?_⟩
        simp only [hsl] at h
        cases hooi : ooi with
        | none => exact Or.inl rfl
        | some o =>
          simp only [hooi] at h
          cases hsp : o.scan_profile with
          | none => simp [hsp] at h
          | some sp =>
            simp only [hsp] at h
            cases hlv : sp.level with
            | none => simp [hlv] at h
            | some lt =>
              simp only [hlv] at h
              refine Or.inr ⟨o, sp, lt, rfl, hsp, hlv, ?_⟩
              by_contra hle
              simp [not_le] at hle
              simp [hle] at h
  · rintro ⟨he, ls, hsl, hrest⟩
    simp only [he, hsl]
    rcases hrest with hnone | ⟨o, sp, lt, hooi, hsp, hlv, hle⟩
    · simp [hnone]
    · simp [hooi, hsp, hlv, not_lt.mpr hle]

/-! ## Claim theorems: the still-running consistency check -/

/-- **C5.** The still-running check raises the fatal inconsistency error
exactly when the stored task has a terminal finished status (COMPLETED or
FAILED), the results store has no run record, and the stored task was
modified within the (global default) grace period; in every other case,
including the benign still-running skips, no error is raised. -/
theorem boefje_running_error_characterization
    (now : Int) (cfg : SchedulerConfig) (task_db : Option Task) (task_bytes : Option RunRecord) :
    has_boefje_task_started_running now cfg task_db task_bytes = .error () ↔
      task_bytes = none ∧
        ∃ t, task_db = some t ∧ (t.status = .completed ∨ t.status = .failed) ∧
          t.modified_at > now - cfg.pq_grace_period := by
  unfold has_boefje_task_started_running
  cases task_db with
  | none =>
    cases task_bytes with
    | none => simp
    | some b =>
      cases hb : (b.ended_at.isNone && b.started_at.isSome) <;> simp [hb]
  | some t =>
    cases task_bytes with
    | none =>
      cases hst : t.status with
      | completed =>
        by_cases hc : t.modified_at > now - cfg.pq_grace_period <;> simp [hst, hc]
      | failed =>
        by_cases hc : t.modified_at > now - cfg.pq_grace_period <;> simp [hst, hc]
      | pending => simp [hst]
      | queued => simp [hst]
      | dispatched => simp [hst]
      | running => simp [hst]
      | cancelled => simp [hst]
    | some b =>
      cases hst : t.status <;>
        cases hb : (b.ended_at.isNone && b.started_at.isSome) <;>
          simp [hst, hb]

/-! ## Claim theorems: the at-most-one-in-flight invariant -/

theorem countP_map_le_of_pointwise {α : Type} {f : α → α} {P : α → Bool}
    (hf : ∀ t, P (f t) = true → P t = true) (l : List α) :
    (l.map f).countP P ≤ l.countP P := by
  induction l with
  | nil => simp
  | cons a l ih =>
    simp only [List.map_cons, List.countP_cons]
    have hite : (if P (f a) = true then 1 else 0) ≤ (if P a = true then 1 else 0) := by
      by_cases hfa : P (f a) = true
      · simp [hfa, hf a hfa]
      · simp [hfa]
    omega

theorem countP_map_eq_of_pointwise {α : Type} {f : α → α} {P : α → Bool}
    (hf : ∀ t, P (f t) = P t) (l : List α) :
    (l.map f).countP P = l.countP P := by
  induction l with
  | nil => simp
  | cons a l ih =>
    simp only [List.map_cons, List.countP_cons, ih, hf a]

theorem dedupInvariant_markTaskFailed {store : List Task} (t : Task)
    (h : dedupInvariant store) : dedupInvariant (markTaskFailed store t) := by
  intro hh
  refine le_trans (countP_map_le_of_pointwise ?_ store) (h hh)
  intro u hu
  by_cases hid : u.id = t.id
  · exfalso
    simp only [hid, if_true] at hu
    simp [qdWithHash] at hu
  · simpa only [hid, if_false] using hu

theorem dedupInvariant_queuePush (env : PushEnv) {store : List Task} (item : Task)
    (h : dedupInvariant store) : dedupInvariant (queuePush env store item) := by
  unfold queuePush
  by_cases hdup : store.any (activeWithHash item.hash) = true
  · rw [if_pos hdup]; exact h
  · rw [if_neg hdup]
    by_cases hallow : env.allow item = false
    · rw [if_pos hallow]; exact h
    · rw [if_neg hallow]
      intro hh
      rw [List.countP_append]
      have hone : List.countP (qdWithHash hh)
          [{ item with status := .queued, modified_at := env.now }] ≤ 1 := by
        rw [List.countP_cons, List.countP_nil]
        split <;> omega
      by_cases hhash : item.hash = hh
      · have hzero : store.countP (qdWithHash hh) = 0 := by
          rw [List.countP_eq_zero]
          intro a ha hqd
          apply hdup
          rw [List.any_eq_true]
          refine ⟨a, ha, ?_⟩
          simp only [qdWithHash, Bool.and_eq_true, Bool.or_eq_true, decide_eq_true_eq] at hqd
          simp only [activeWithHash, activeStatus, Bool.and_eq_true, Bool.or_eq_true,
            decide_eq_true_eq]
          exact ⟨by rw [hqd.1, hhash], by rcases hqd.2 with h1 | h1 <;> simp [h1]⟩
        rw [hzero]
        omega
      · have hzero : List.countP (qdWithHash hh)
            [{ item with status := .queued, modified_at := env.now }] = 0 := by
          simp [qdWithHash, hhash]
        rw [hzero]
        have := h hh
        omega

theorem dedupInvariant_push_item_to_queue (env : PushEnv) {store : List Task} (item : Task)
    (h : dedupInvariant store) : dedupInvariant (push_item_to_queue env store item) := by
  unfold push_item_to_queue
  split <;> exact dedupInvariant_queuePush env _ h

theorem dedupInvariant_foldl_push (env : PushEnv) (l : List Task) {store : List Task}
    (h : dedupInvariant store) :
    dedupInvariant (l.foldl (fun st it => push_item_to_queue env st it) store) := by
  induction l generalizing store with
  | nil => exact h
  | cons a l ih => exact ih (dedupInvariant_push_item_to_queue env a h)

theorem dedupInvariant_applyStalled (env : PushEnv) {store : List Task}
    (task_db : Option Task) (h : dedupInvariant store) :
    dedupInvariant (applyStalled env store task_db).1 := by
  unfold applyStalled
  split
  · split
    · exact dedupInvariant_markTaskFailed _ h
    · exact h
  · exact h

theorem dedupInvariant_pushCandidate (env : PushEnv) (bt : BoefjeTask) {store1 : List Task}
    (h : dedupInvariant store1) : dedupInvariant (pushCandidate env bt store1).1 := by
  unfold pushCandidate
  exact dedupInvariant_foldl_push env _ h

theorem dedupInvariant_pushChecked (env : PushEnv) (bt : BoefjeTask) {store : List Task}
    (task_db : Option Task) (h : dedupInvariant store) :
    dedupInvariant (pushChecked env bt store task_db).1 := by
  unfold pushChecked
  have h1 := dedupInvariant_applyStalled env task_db h
  dsimp only
  split
  · exact h1
  · exact h1
  · exact dedupInvariant_pushCandidate env bt h1

theorem dedupInvariant_push_boefje_task (env : PushEnv) (bt : BoefjeTask)
    {store : List Task} (h : dedupInvariant store) :
    dedupInvariant (push_boefje_task env bt store).1 := by
  unfold push_boefje_task
  dsimp only
  split
  · exact h
  · split
    · exact h
    · exact dedupInvariant_pushChecked env bt _ h

theorem dedupInvariant_applyOp (op : SchedOp) {store : List Task}
    (h : dedupInvariant store) : dedupInvariant (applyOp store op) := by
  cases op with
  | push env bt => exact dedupInvariant_push_boefje_task env bt h
  | pop ids =>
    intro hh
    unfold applyOp
    rw [countP_map_eq_of_pointwise (fun t => ?_)]
    · exact h hh
    · by_cases hc : t.id ∈ ids ∧ t.status = .queued
      · simp only [hc, if_true]
        simp [qdWithHash, hc.2]
      · simp only [hc, if_false]

/-- **C1.** For every sequence of push-pipeline calls (`push_boefje_task`,
whose rank-and-push batch runs under the single queue lock and is hence
one atomic step) and queue pops, at most one task with a given content
hash is in status QUEUED or DISPATCHED at any time. -/
theorem boefje_hash_dedup_invariant (ops : List SchedOp) :
    dedupInvariant (runOps ops) := by
  have main : ∀ (l : List SchedOp) (store : List Task),
      dedupInvariant store → dedupInvariant (l.foldl applyOp store) := by
    intro l
    induction l with
    | nil => intro store h; exact h
    | cons op l ih =>
      intro store h
      exact ih _ (dedupInvariant_applyOp op h)
  refine main ops [] ?_
  intro h
  simp

/-! ## Structure of the fan-out and of the final batch push -/

theorem foldl_fanStep_eq (env : PushEnv) (boefje : Plugin) (bt : BoefjeTask) :
    ∀ (l : List DupConfig) (acc : List Task),
      l.foldl (fanStep env boefje bt) acc =
        acc ++ (l.filter (fanAccept env boefje bt)).map (fanSibling env boefje bt) := by
  intro l
  induction l with
  | nil => intro acc; simp
  | cons c l ih =>
    intro acc
    simp only [List.foldl_cons]
    rw [ih]
    unfold fanStep
    by_cases h1 : c.organisation_id = bt.organization
    · simp [fanAccept, List.filter_cons, h1]
    · cases h2 : lookupOrg env.orgClients c.organisation_id with
      | none => simp [fanAccept, List.filter_cons, h1, h2]
      | some ooi =>
        cases h3 : has_boefje_permission_to_run boefje (some ooi) with
        | false => simp [fanAccept, List.filter_cons, h1, h2, h3]
        | true => simp [fanAccept, List.filter_cons, h1, h2, h3]

/-- Under the preconditions that reach the loop, `is_boefje_in_other_orgs`
is exactly: one sibling per accepted linked organisation. -/
theorem is_boefje_in_other_orgs_eq (env : PushEnv) (bt : BoefjeTask) (pk : String)
    (c0 : KatConfig) (rest : List KatConfig) (boefje : Plugin)
    (h1 : bt.input_ooi = some pk) (h2 : env.configs = c0 :: rest)
    (h3 : env.orgClients.isEmpty = false) (h4 : env.plugin = some boefje) :
    is_boefje_in_other_orgs env bt =
      (c0.duplicates.filter (fanAccept env boefje bt)).map (fanSibling env boefje bt) := by
  unfold is_boefje_in_other_orgs
  rw [h1, h2, h3, h4]
  simp [foldl_fanStep_eq]

theorem fanSibling_hash (env : PushEnv) (boefje : Plugin) (bt : BoefjeTask) (c : DupConfig) :
    (fanSibling env boefje bt c).hash = (boefje.id, bt.input_ooi, c.organisation_id) := rfl

theorem fanSibling_dedup_key (env : PushEnv) (boefje : Plugin) (bt : BoefjeTask) (c : DupConfig) :
    (fanSibling env boefje bt c).data.deduplication_key = some bt.id := rfl

/-- Every fan-out sibling lives in a different organisation, hence has a
different content hash from the original candidate. -/
theorem mem_fan_hash_ne (env : PushEnv) (bt : BoefjeTask) :
    ∀ u ∈ is_boefje_in_other_orgs env bt, u.hash ≠ bt.hash := by
  intro u hu
  cases hio : bt.input_ooi with
  | none => simp [is_boefje_in_other_orgs, hio] at hu
  | some pk =>
    cases hcfg : env.configs with
    | nil => simp [is_boefje_in_other_orgs, hio, hcfg] at hu
    | cons c0 rest =>
      cases hoc : env.orgClients.isEmpty with
      | true => simp [is_boefje_in_other_orgs, hio, hcfg, hoc] at hu
      | false =>
        cases hpl : env.plugin with
        | none => simp [is_boefje_in_other_orgs, hio, hcfg, hoc, hpl] at hu
        | some boefje =>
          rw [is_boefje_in_other_orgs_eq env bt pk c0 rest boefje hio hcfg hoc hpl] at hu
          obtain ⟨c, hc, rfl⟩ := List.mem_map.mp hu
          have hacc := (List.mem_filter.mp hc).2
          simp only [fanAccept, Bool.and_eq_true, Bool.not_eq_true', decide_eq_false_iff_not] at hacc
          intro heq
          apply hacc.1
          have : (fanSibling env boefje bt c).hash.2.2 = bt.hash.2.2 := by rw [heq]
          simpa [fanSibling_hash, BoefjeTask.hash] using this

/-- Pushing an item whose hash differs from `hsh` does not change the
number of active entries with hash `hsh`. -/
theorem queuePush_countP_hash_ne (env : PushEnv) (st : List Task) (item : Task)
    (hsh : THash) (hne : item.hash ≠ hsh) :
    (queuePush env st item).countP (activeWithHash hsh) = st.countP (activeWithHash hsh) := by
  unfold queuePush
  split
  · rfl
  · split
    · rfl
    · rw [List.countP_append]
      have hzero : List.countP (activeWithHash hsh)
          [{ item with status := .queued, modified_at := env.now }] = 0 := by
        simp [List.countP_cons, activeWithHash, hne]
      omega

theorem push_item_countP_hash_ne (env : PushEnv) (st : List Task) (item : Task)
    (hsh : THash) (hne : item.hash ≠ hsh) :
    (push_item_to_queue env st item).countP (activeWithHash hsh) =
      st.countP (activeWithHash hsh) := by
  unfold push_item_to_queue
  split
  · exact queuePush_countP_hash_ne env st _ hsh hne
  · exact queuePush_countP_hash_ne env st _ hsh hne

theorem foldl_push_countP_hash_ne (env : PushEnv) (hsh : THash) :
    ∀ (l : List Task) (st : List Task), (∀ u ∈ l, u.hash ≠ hsh) →
      (l.foldl (fun st it => push_item_to_queue env st it) st).countP (activeWithHash hsh) =
        st.countP (activeWithHash hsh) := by
  intro l
  induction l with
  | nil => intro st _; rfl
  | cons a l ih =>
    intro st hne
    simp only [List.foldl_cons]
    rw [ih _ (fun u hu => hne u (List.mem_cons_of_mem a hu)),
      push_item_countP_hash_ne env st a hsh (hne a (List.mem_cons_self a l))]

theorem any_eq_false_of_countP_zero {p : Task → Bool} {st : List Task}
    (h : st.countP p = 0) : st.any p = false := by
  cases hany : st.any p with
  | false => rfl
  | true =>
    exfalso
    rw [List.any_eq_true] at hany
    obtain ⟨a, ha, hpa⟩ := hany
    rw [List.countP_eq_zero] at h
    exact absurd hpa (h a ha)

/-- A push with no equivalent active entry and capacity available appends
the item with status QUEUED. -/
theorem queuePush_append (env : PushEnv) (st : List Task) (item : Task)
    (hz : st.any (activeWithHash item.hash) = false) (ha : env.allow item = true) :
    queuePush env st item = st ++ [{ item with status := .queued, modified_at := env.now }] := by
  unfold queuePush
  rw [if_neg (by simp [hz]), if_neg (by simp [ha])]

theorem push_item_mkTask (env : PushEnv) (st : List Task) (p : BoefjeTask) :
    push_item_to_queue env st (mkTask env p) = queuePush env st (mkTask env p) := by
  unfold push_item_to_queue
  rw [if_neg]
  simp [mkTask]

theorem fanTagged_hash (env : PushEnv) (bt : BoefjeTask) :
    (fanTagged env bt).hash = bt.hash := by
  unfold fanTagged
  split <;> rfl

theorem mkTask_hash (env : PushEnv) (p : BoefjeTask) : (mkTask env p).hash = p.hash := rfl

/-- If no active entry with the candidate's hash is present, the final
batch push queues the (possibly tagged) original task. -/
theorem pushCandidate_queues (env : PushEnv) (bt : BoefjeTask) (store1 : List Task)
    (hz : store1.countP (activeWithHash bt.hash) = 0)
    (hallow : ∀ tk, env.allow tk = true) :
    ∃ s', pushCandidate env bt store1 =
        (s', .pushed (is_boefje_in_other_orgs env bt ++ [mkTask env (fanTagged env bt)])) ∧
      { mkTask env (fanTagged env bt) with
          status := TaskStatus.queued, modified_at := env.now } ∈ s' := by
  unfold pushCandidate
  dsimp only
  refine ⟨_, rfl, ?_⟩
  rw [List.foldl_append]
  have hz1 : ((is_boefje_in_other_orgs env bt).foldl
      (fun st it => push_item_to_queue env st it) store1).countP (activeWithHash bt.hash) = 0 := by
    rw [foldl_push_countP_hash_ne env bt.hash _ _ (mem_fan_hash_ne env bt)]
    exact hz
  simp only [List.foldl_cons, List.foldl_nil]
  rw [push_item_mkTask, queuePush_append]
  · exact List.mem_append_right _ (by simp)
  · have hh : (mkTask env (fanTagged env bt)).hash = bt.hash := by
      rw [mkTask_hash, fanTagged_hash]
    rw [hh]
    exact any_eq_false_of_countP_zero hz1
  · exact hallow _

/-! ## Claim theorems: grace period -/

theorem boefje_grace_false_iff (now : Int) (cfg : SchedulerConfig) (plugin : Option Plugin)
    (task_db : Option Task) (task_bytes : Option RunRecord) :
    has_boefje_task_grace_period_passed now cfg plugin task_db task_bytes = false ↔
      (∃ t, task_db = some t ∧ now - t.modified_at < graceTimeout cfg plugin) ∨
      (∃ b e, task_bytes = some b ∧ b.ended_at = some e ∧
        now - e < graceTimeout cfg plugin) := by
  unfold has_boefje_task_grace_period_passed
  cases task_db with
  | none =>
    cases task_bytes with
    | none => simp
    | some b =>
      cases he : b.ended_at with
      | none => simp [he]
      | some e =>
        by_cases hc : now - e < graceTimeout cfg plugin <;> simp [he, hc]
  | some t =>
    by_cases h1 : now - t.modified_at < graceTimeout cfg plugin
    · simp [h1]
    · cases task_bytes with
      | none => simp [h1]
      | some b =>
        cases he : b.ended_at with
        | none => simp [h1, he]
        | some e =>
          by_cases hc : now - e < graceTimeout cfg plugin <;> simp [h1, he, hc]

/-- **C3.** The push pipeline queues nothing while the time since the
stored task's last modification, or since the last completed run in the
results store, is under the grace period; the grace period is the
scanner's interval in minutes when defined and positive and the global
default (seconds) otherwise; and once the grace period has elapsed a
second submission of the same candidate is queued. -/
theorem boefje_grace_period_gate (env : PushEnv) (bt : BoefjeTask) (store : List Task) :
    (has_boefje_task_grace_period_passed env.now env.cfg env.plugin
        (getLatestTaskByHash store bt.hash) env.task_bytes = false →
      (push_boefje_task env bt store).1 = store ∧
        ((push_boefje_task env bt store).2 = .droppedAlreadyQueued ∨
          (push_boefje_task env bt store).2 = .stoppedGrace)) ∧
    (∀ p i, env.plugin = some p → p.interval = some i → 0 < i →
      graceTimeout env.cfg env.plugin = 60 * i) ∧
    (∀ p, env.plugin = some p → (∀ i, p.interval = some i → i ≤ 0) →
      graceTimeout env.cfg env.plugin = env.cfg.pq_grace_period) ∧
    (env.plugin = none → graceTimeout env.cfg env.plugin = env.cfg.pq_grace_period) ∧
    (has_boefje_task_grace_period_passed env.now env.cfg env.plugin
        (getLatestTaskByHash store bt.hash) env.task_bytes = false ↔
      (∃ t, getLatestTaskByHash store bt.hash = some t ∧
          env.now - t.modified_at < graceTimeout env.cfg env.plugin) ∨
        (∃ b e, env.task_bytes = some b ∧ b.ended_at = some e ∧
          env.now - e < graceTimeout env.cfg env.plugin)) ∧
    (∀ t b e, getLatestTaskByHash store bt.hash = some t → t.status = .completed →
      env.task_bytes = some b → b.ended_at = some e →
      graceTimeout env.cfg env.plugin ≤ env.now - t.modified_at →
      graceTimeout env.cfg env.plugin ≤ env.now - e →
      store.countP (activeWithHash bt.hash) = 0 →
      (∀ tk, env.allow tk = true) →
      ∃ s' ts, push_boefje_task env bt store = (s', .pushed ts) ∧
        ∃ u ∈ s', u.hash = bt.hash ∧ u.status = .queued) := by
  refine ⟨?_, ?_, ?_, ?_, ?_, ?_⟩
  · intro hg
    unfold push_boefje_task
    dsimp only
    by_cases hqc : (match getLatestTaskByHash store bt.hash with
        | some t => decide (t.status = TaskStatus.queued)
        | none => false) = true
    · rw [if_pos hqc]
      exact ⟨rfl, Or.inl rfl⟩
    · rw [if_neg hqc, if_pos hg]
      exact ⟨rfl, Or.inr rfl⟩
  · intro p i hp hi hpos
    rw [hp]
    simp [graceTimeout, hi, hpos]
  · intro p hp hnp
    rw [hp]
    cases hi : p.interval with
    | none => simp [graceTimeout, hi]
    | some i => simp [graceTimeout, hi, not_lt.mpr (hnp i hi)]
  · intro hp
    rw [hp]
    simp [graceTimeout]
  · exact boefje_grace_false_iff env.now env.cfg env.plugin _ env.task_bytes
  · intro t b e hlatest hstatus hbytes hended hge1 hge2 hz hallow
    unfold push_boefje_task
    dsimp only
    rw [hlatest]
    rw [if_neg (by simp [hstatus])]
    have hgr : has_boefje_task_grace_period_passed env.now env.cfg env.plugin (some t)
        env.task_bytes = true := by
      unfold has_boefje_task_grace_period_passed
      simp [hbytes, hended, not_lt.mpr hge1, not_lt.mpr hge2]
    rw [if_neg (by simp [hgr])]
    unfold pushChecked
    have hstall : has_boefje_task_stalled env.now env.cfg (some t) = false := by
      simp [has_boefje_task_stalled, hstatus]
    have happ : applyStalled env store (some t) = (store, some t) := by
      unfold applyStalled
      rw [hstall]
      simp
    rw [happ]
    have hrun : has_boefje_task_started_running env.now env.cfg (some t)
        env.task_bytes = .ok false := by
      unfold has_boefje_task_started_running
      simp [hbytes, hstatus, hended]
    dsimp only
    rw [hrun]
    obtain ⟨s', heq, hmem⟩ := pushCandidate_queues env bt store hz hallow
    refine ⟨s', _, heq, ?_⟩
    refine ⟨_, hmem, ?_, rfl⟩
    show (mkTask env (fanTagged env bt)).hash = bt.hash
    rw [mkTask_hash, fanTagged_hash]

/-- Witness for C3: a concrete second submission 200s after a completed
run (grace period 100s) is queued. -/
theorem boefje_grace_period_gate_witness :
    ∃ s' ts, push_boefje_task envC3 btC3 [tC3] = (s', .pushed ts) ∧
      ∃ u ∈ s', u.hash = btC3.hash ∧ u.status = .queued :=
  (boefje_grace_period_gate envC3 btC3 [tC3]).2.2.2.2.2
    tC3 { id := "run-1", started_at := some 10, ended_at := some 50 } 50
    (by decide) (by decide) rfl rfl (by decide) (by decide) (by decide) (fun _ => rfl)

/-! ## Claim theorems: stalled recovery -/

theorem queuePush_suffix (env : PushEnv) (st : List Task) (item : Task) :
    ∃ rest, queuePush env st item = st ++ rest := by
  unfold queuePush
  split
  · exact ⟨[], by simp⟩
  · split
    · exact ⟨[], by simp⟩
    · exact ⟨_, rfl⟩

theorem push_item_suffix (env : PushEnv) (st : List Task) (item : Task) :
    ∃ rest, push_item_to_queue env st item = st ++ rest := by
  unfold push_item_to_queue
  split
  · exact queuePush_suffix env st _
  · exact queuePush_suffix env st _

theorem foldl_push_suffix (env : PushEnv) :
    ∀ (l : List Task) (st : List Task),
      ∃ rest, l.foldl (fun st it => push_item_to_queue env st it) st = st ++ rest := by
  intro l
  induction l with
  | nil => intro st; exact ⟨[], by simp⟩
  | cons a l ih =>
    intro st
    simp only [List.foldl_cons]
    obtain ⟨r1, hr1⟩ := push_item_suffix env st a
    obtain ⟨r2, hr2⟩ := ih (push_item_to_queue env st a)
    exact ⟨r1 ++ r2, by rw [hr2, hr1, List.append_assoc]⟩

theorem pushCandidate_suffix (env : PushEnv) (bt : BoefjeTask) (store1 : List Task) :
    ∃ rest, (pushCandidate env bt store1).1 = store1 ++ rest := by
  unfold pushCandidate
  exact foldl_push_suffix env _ store1

/-- **C4, counterexample.**  A stored task DISPATCHED since time 0 with
grace period 100 and now = 201 (so modified longer ago than the grace
period) is marked FAILED, but because the results store reports a
started-but-unfinished run the pipeline stops at the still-running check:
no fresh task is queued, contradicting the claim that it "continues to
queue a fresh task instead of stopping". -/
theorem boefje_stalled_claim_counterexample :
    push_boefje_task envC4 btC4 [tC4] =
      ([{ tC4 with status := TaskStatus.failed }], .stoppedStillRunning) ∧
    (push_boefje_task envC4 btC4 [tC4]).1.countP
      (fun u => decide (u.status = TaskStatus.queued)) = 0 := by
  constructor
  · decide
  · decide

/-- **C4, amended.**  If the grace-period check passes, the stored task is
DISPATCHED or RUNNING and was last modified longer ago than the global
default grace period, then the pipeline marks the stored task FAILED and
— provided the results store does not record a started-but-unfinished run
and the queue admits the batch — continues to queue a fresh task instead
of stopping. -/
theorem boefje_stalled_recovery_amended (env : PushEnv) (bt : BoefjeTask)
    (store : List Task) (t : Task)
    (hlatest : getLatestTaskByHash store bt.hash = some t)
    (hQ : t.status = .dispatched ∨ t.status = .running)
    (hgr : has_boefje_task_grace_period_passed env.now env.cfg env.plugin (some t)
      env.task_bytes = true)
    (harith : env.now > t.modified_at + env.cfg.pq_grace_period)
    (hb : ∀ rb, env.task_bytes = some rb → rb.started_at = none ∨ rb.ended_at ≠ none)
    (hOnly : ∀ u ∈ store, u.hash = bt.hash → activeStatus u.status = true → u.id = t.id)
    (hallow : ∀ tk, env.allow tk = true) :
    ∃ s' ts, push_boefje_task env bt store = (s', .pushed ts) ∧
      (∀ u ∈ markTaskFailed store t, u.id = t.id → u.status = .failed) ∧
      (∃ rest, s' = markTaskFailed store t ++ rest) ∧
      ∃ u ∈ s', u.hash = bt.hash ∧ u.status = .queued := by
  unfold push_boefje_task
  dsimp only
  rw [hlatest]
  rw [if_neg (by rcases hQ with h | h <;> simp [h])]
  rw [if_neg (by simp [hgr])]
  unfold pushChecked
  have hstall : has_boefje_task_stalled env.now env.cfg (some t) = true := by
    rcases hQ with h | h <;> simp [has_boefje_task_stalled, h, harith]
  have happ : applyStalled env store (some t) =
      (markTaskFailed store t, some { t with status := TaskStatus.failed }) := by
    unfold applyStalled
    rw [if_pos hstall]
  rw [happ]
  have hmod : ¬ (t.modified_at > env.now - env.cfg.pq_grace_period) := by omega
  have hrun : has_boefje_task_started_running env.now env.cfg
      (some { t with status := TaskStatus.failed }) env.task_bytes = .ok false := by
    unfold has_boefje_task_started_running
    cases hby : env.task_bytes with
    | none => simp [hmod]
    | some rb =>
      rcases hb rb hby with hs | he
      · simp [hs]
      · cases hee : rb.ended_at with
        | none => exact absurd hee he
        | some e => simp [hee]
  dsimp only
  rw [hrun]
  have hz : (markTaskFailed store t).countP (activeWithHash bt.hash) = 0 := by
    rw [List.countP_eq_zero]
    intro u hu
    unfold markTaskFailed at hu
    obtain ⟨v, hv, rfl⟩ := List.mem_map.mp hu
    by_cases hid : v.id = t.id
    · rw [if_pos hid]
      simp [activeWithHash, activeStatus]
    · rw [if_neg hid]
      intro hact
      simp only [activeWithHash, Bool.and_eq_true, decide_eq_true_eq] at hact
      exact hid (hOnly v hv hact.1 hact.2)
  obtain ⟨s', heq, hmem⟩ := pushCandidate_queues env bt (markTaskFailed store t) hz hallow
  refine ⟨s', _, heq, ?_, ?_, ?_⟩
  · intro u hu hid
    unfold markTaskFailed at hu
    obtain ⟨v, hv, rfl⟩ := List.mem_map.mp hu
    by_cases hvid : v.id = t.id
    · rw [if_pos hvid]
    · rw [if_neg hvid] at hid ⊢
      exact absurd hid hvid
  · obtain ⟨rest, hr⟩ := pushCandidate_suffix env bt (markTaskFailed store t)
    refine ⟨rest, ?_⟩
    have hs' : s' = (pushCandidate env bt (markTaskFailed store t)).1 := by rw [heq]
    rw [hs', hr]
  · refine ⟨_, hmem, ?_, rfl⟩
    show (mkTask env (fanTagged env bt)).hash = bt.hash
    rw [mkTask_hash, fanTagged_hash]

/-- Witness for the amended C4: with no bytes record, the stalled stored
task is failed and a fresh task is queued. -/
theorem boefje_stalled_recovery_amended_witness :
    ∃ s' ts, push_boefje_task envC4w btC4 [tC4] = (s', .pushed ts) ∧
      (∀ u ∈ markTaskFailed [tC4] tC4, u.id = tC4.id → u.status = .failed) ∧
      (∃ rest, s' = markTaskFailed [tC4] tC4 ++ rest) ∧
      ∃ u ∈ s', u.hash = btC4.hash ∧ u.status = .queued :=
  boefje_stalled_recovery_amended envC4w btC4 [tC4] tC4 (by decide) (Or.inl rfl)
    (by decide) (by decide) (fun rb h => nomatch h) (by decide) (fun _ => rfl)

/-! ## Claim theorems: cross-organisation fan-out -/

/-- **C8.** When the scanner+target pair is linked to other organisations
via catalog duplicate configs, the fan-out builds exactly one sibling per
linked organisation that is not the original one, still has the target,
and passes the permission check (a failing organisation yields no
sibling); each sibling carries `deduplication_key` equal to the original
task's id; the pushed batch is the siblings plus the original task, and
the original payload is tagged with the same deduplication key exactly
when siblings exist. -/
theorem boefje_cross_org_fanout (env : PushEnv) (bt : BoefjeTask) (store : List Task)
    (pk : String) (c0 : KatConfig) (rest : List KatConfig) (boefje : Plugin)
    (h1 : bt.input_ooi = some pk) (h2 : env.configs = c0 :: rest)
    (h3 : env.orgClients.isEmpty = false) (h4 : env.plugin = some boefje)
    (hlatest : getLatestTaskByHash store bt.hash = none)
    (hbytes : env.task_bytes = none) :
    is_boefje_in_other_orgs env bt =
      (c0.duplicates.filter (fanAccept env boefje bt)).map (fanSibling env boefje bt) ∧
    (∀ u ∈ is_boefje_in_other_orgs env bt, u.data.deduplication_key = some bt.id) ∧
    (push_boefje_task env bt store).2 =
      .pushed (is_boefje_in_other_orgs env bt ++ [mkTask env (fanTagged env bt)]) ∧
    ((is_boefje_in_other_orgs env bt).isEmpty = false →
      (fanTagged env bt).deduplication_key = some bt.id) ∧
    ((is_boefje_in_other_orgs env bt).isEmpty = true → fanTagged env bt = bt) := by
  refine ⟨is_boefje_in_other_orgs_eq env bt pk c0 rest boefje h1 h2 h3 h4, ?_, ?_, ?_, ?_⟩
  · intro u hu
    rw [is_boefje_in_other_orgs_eq env bt pk c0 rest boefje h1 h2 h3 h4] at hu
    obtain ⟨c, _, rfl⟩ := List.mem_map.mp hu
    exact fanSibling_dedup_key env boefje bt c
  · unfold push_boefje_task
    dsimp only
    rw [hlatest]
    rw [if_neg (by simp)]
    have hgr : has_boefje_task_grace_period_passed env.now env.cfg env.plugin none
        env.task_bytes = true := by
      unfold has_boefje_task_grace_period_passed
      simp [hbytes]
    rw [if_neg (by simp [hgr])]
    unfold pushChecked
    have happ : applyStalled env store none = (store, none) := by
      unfold applyStalled
      simp [has_boefje_task_stalled]
    rw [happ]
    have hrun : has_boefje_task_started_running env.now env.cfg none env.task_bytes =
        .ok false := by
      unfold has_boefje_task_started_running
      simp [hbytes]
    dsimp only
    rw [hrun]
    rfl
  · intro hne
    unfold fanTagged
    rw [if_neg (by simp [hne])]
  · intro hemp
    unfold fanTagged
    rw [if_pos hemp]

/-- Witness for C8: orgB (level 3 ≥ 2) gets a sibling, orgC (level 1 < 2)
does not; exactly one sibling is produced, tagged with the original id. -/
theorem boefje_cross_org_fanout_witness :
    (is_boefje_in_other_orgs envC8 btC8 =
      (List.filter (fanAccept envC8 plugin8 btC8)
          [{ organisation_id := "orgB" }, { organisation_id := "orgC" }]).map
        (fanSibling envC8 plugin8 btC8) ∧
     (∀ u ∈ is_boefje_in_other_orgs envC8 btC8, u.data.deduplication_key = some btC8.id) ∧
     (push_boefje_task envC8 btC8 []).2 =
       .pushed (is_boefje_in_other_orgs envC8 btC8 ++ [mkTask envC8 (fanTagged envC8 btC8)]) ∧
     ((is_boefje_in_other_orgs envC8 btC8).isEmpty = false →
       (fanTagged envC8 btC8).deduplication_key = some btC8.id) ∧
     ((is_boefje_in_other_orgs envC8 btC8).isEmpty = true → fanTagged envC8 btC8 = btC8)) ∧
    (is_boefje_in_other_orgs envC8 btC8).length = 1 ∧
    (fanTagged envC8 btC8).deduplication_key = some "task-8" :=
  ⟨boefje_cross_org_fanout envC8 btC8 [] "ooi-8"
      { organisation_id := "orgA",
        duplicates := [{ organisation_id := "orgB" }, { organisation_id := "orgC" }] }
      [] plugin8 rfl rfl rfl rfl rfl rfl,
    by decide, by decide⟩

/-! ## Claim theorems: mutation handling -/

theorem find?_id_map (f : Task → Task) (hfid : ∀ u, (f u).id = u.id) :
    ∀ (st : List Task) (i : Uuid) (v : Task),
      st.find? (fun t => decide (t.id = i)) = some v →
      (st.map f).find? (fun t => decide (t.id = i)) = some (f v) := by
  intro st
  induction st with
  | nil => intro i v h; simp at h
  | cons a st ih =>
    intro i v h
    by_cases ha : a.id = i
    · rw [List.find?_cons_of_pos _ (by simp [ha])] at h
      have hav : a = v := by injection h
      rw [List.map_cons, List.find?_cons_of_pos _ (by simp [hfid a, ha])]
      rw [hav]
    · rw [List.find?_cons_of_neg] at h
      · rw [List.map_cons, List.find?_cons_of_neg]
        · exact ih i v h
        · simp [hfid a, ha]
      · simp [ha]

theorem find?_self_of_nodup :
    ∀ (st : List Task), (st.map (fun t => t.id)).Nodup →
      ∀ it ∈ st, st.find? (fun t => decide (t.id = it.id)) = some it := by
  intro st
  induction st with
  | nil => intro _ it h; simp at h
  | cons a st ih =>
    intro hnd it hit
    rw [List.map_cons, List.nodup_cons] at hnd
    rcases List.mem_cons.mp hit with rfl | hit'
    · rw [List.find?_cons_of_pos _ (by simp)]
    · rw [List.find?_cons_of_neg]
      · exact ih hnd.2 it hit'
      · intro ha
        apply hnd.1
        simp only [decide_eq_true_eq] at ha
        exact ha ▸ List.mem_map_of_mem _ hit'

theorem find?_unique :
    ∀ (st : List Task), (st.map (fun t => t.id)).Nodup →
      ∀ (i : Uuid) (v : Task), st.find? (fun t => decide (t.id = i)) = some v →
      ∀ u ∈ st, u.id = i → u = v := by
  intro st
  induction st with
  | nil => intro _ i v h; simp at h
  | cons a st ih =>
    intro hnd i v hfind u hu hui
    rw [List.map_cons, List.nodup_cons] at hnd
    by_cases ha : a.id = i
    · rw [List.find?_cons_of_pos _ (by simp [ha])] at hfind
      have hav : a = v := by injection hfind
      rcases List.mem_cons.mp hu with rfl | hu'
      · exact hav
      · exfalso
        apply hnd.1
        exact (ha.trans hui.symm) ▸ List.mem_map_of_mem _ hu'
    · rw [List.find?_cons_of_neg _ (by simp [ha])] at hfind
      rcases List.mem_cons.mp hu with rfl | hu'
      · exact absurd hui ha
      · exact ih hnd.2 i v hfind u hu' hui

theorem foldl_cancelOne_eq :
    ∀ (items : List Task) (st : List Task),
      (∀ it ∈ items, st.find? (fun t => decide (t.id = it.id)) = some it) →
      (items.map (fun t => t.id)).Nodup →
      (st.map (fun t => t.id)).Nodup →
      items.foldl cancelOne st =
        st.map (fun u =>
          if u.id ∈ items.map (fun t => t.id) then { u with status := TaskStatus.cancelled }
          else u) := by
  intro items
  induction items with
  | nil =>
    intro st _ _ _
    simp
  | cons it rest ih =>
    intro st hfind hnditems hndst
    simp only [List.foldl_cons]
    have hit := hfind it (List.mem_cons_self _ _)
    have hstep : cancelOne st it =
        st.map (fun u =>
          if u.id = it.id then { it with status := TaskStatus.cancelled } else u) := by
      unfold cancelOne
      rw [hit]
    rw [hstep]
    have hfid : ∀ u : Task,
        ((fun u : Task =>
          if u.id = it.id then { it with status := TaskStatus.cancelled } else u) u).id =
          u.id := by
      intro u
      by_cases h : u.id = it.id
      · simp [h]
      · simp [h]
    have hids1 : (st.map (fun u : Task =>
        if u.id = it.id then { it with status := TaskStatus.cancelled } else u)).map
          (fun t => t.id) = st.map (fun t => t.id) := by
      rw [List.map_map]
      exact List.map_congr_left (fun u _ => hfid u)
    rw [List.map_cons, List.nodup_cons] at hnditems
    have hfind1 : ∀ it' ∈ rest,
        (st.map (fun u : Task =>
          if u.id = it.id then { it with status := TaskStatus.cancelled } else u)).find?
            (fun t => decide (t.id = it'.id)) = some it' := by
      intro it' hit'
      have hne : it'.id ≠ it.id := by
        intro he
        exact hnditems.1 (he ▸ List.mem_map_of_mem _ hit')
      have := find?_id_map _ hfid st it'.id it' (hfind it' (List.mem_cons_of_mem _ hit'))
      rw [if_neg hne] at this
      exact this
    rw [ih _ hfind1 hnditems.2 (by rw [hids1]; exact hndst)]
    rw [List.map_map]
    apply List.map_congr_left
    intro u hu
    by_cases h : u.id = it.id
    · have huit : u = it := find?_unique st hndst it.id it hit u hu h
      subst huit
      simp [hnditems.1]
    · simp only [Function.comp_apply, List.map_cons]
      rw [if_neg h]
      by_cases hr : u.id ∈ rest.map (fun t => t.id)
      · rw [if_pos hr, if_pos (List.mem_cons_of_mem _ hr)]
      · rw [if_neg hr, if_neg (by simp [List.mem_cons, h, hr])]

/-- **C9.** A DELETE mutation for target T sets the status of every queued
task of this scheduler whose payload input-OOI equals T's primary key to
CANCELLED (all other fields kept), and leaves every other task — in
particular every task referencing a different target — entirely
unchanged. -/
theorem boefje_delete_mutation_cancels (env : MutationEnv) (ooi : OOI) (cid : String)
    (store : List Task) (hnd : (store.map (fun t => t.id)).Nodup) :
    process_mutations env
        { operation := .delete, primary_key := ooi.primary_key, value := some ooi,
          client_id := cid } store =
      (store.map (fun u =>
        if deleteFilter ooi.primary_key u then { u with status := TaskStatus.cancelled }
        else u), []) := by
  unfold process_mutations
  dsimp only
  rw [if_pos rfl]
  refine Prod.ext ?_ rfl
  show cancelMatching ooi.primary_key store = _
  unfold cancelMatching
  have hsub : ((store.filter (deleteFilter ooi.primary_key)).map (fun t => t.id)).Nodup :=
    (hnd.sublist (List.Sublist.map _ (List.filter_sublist store)))
  rw [foldl_cancelOne_eq _ store
    (fun it hit => find?_self_of_nodup store hnd it (List.mem_of_mem_filter hit))
    hsub hnd]
  apply List.map_congr_left
  intro u hu
  dsimp only
  by_cases hdf : deleteFilter ooi.primary_key u = true
  · rw [if_pos (List.mem_map_of_mem _ (List.mem_filter.mpr ⟨hu, hdf⟩)), if_pos hdf]
  · have hnm : ¬ u.id ∈ (store.filter (deleteFilter ooi.primary_key)).map
        (fun t => t.id) := by
      intro hmem
      obtain ⟨w, hw, hwid⟩ := List.mem_map.mp hmem
      have hwu : w = u := List.inj_on_of_nodup_map hnd (List.mem_of_mem_filter hw) hu hwid
      exact hdf (hwu ▸ (List.mem_filter.mp hw).2)
    rw [if_neg hnm, if_neg hdf]

def ooiC9 : OOI :=
  { primary_key := "ooi-9", object_type := "Hostname", scan_profile := some { level := some 2 } }

def btC9a : BoefjeTask :=
  { id := "task-9a", boefje := { id := "bf9", name := "bf9" }, input_ooi := some "ooi-9",
    organization := "orgA", deduplication_key := none }

def btC9b : BoefjeTask :=
  { id := "task-9b", boefje := { id := "bf9", name := "bf9" }, input_ooi := some "other",
    organization := "orgA", deduplication_key := none }

def tC9a : Task :=
  { id := "task-9a", scheduler_id := "boefje", organisation := "orgA", type := "boefje",
    hash := btC9a.hash, data := btC9a, status := .queued, priority := 1, modified_at := 7 }

def tC9b : Task :=
  { id := "task-9b", scheduler_id := "boefje", organisation := "orgA", type := "boefje",
    hash := btC9b.hash, data := btC9b, status := .queued, priority := 2, modified_at := 8 }

def envC9 : MutationEnv :=
  { boefjesForType := fun _ _ => [], newTaskId := fun s => s }

/-- Witness for C9: of two queued tasks, only the one referencing the
deleted target is cancelled; the other keeps all fields. -/
theorem boefje_delete_mutation_cancels_witness :
    process_mutations envC9
        { operation := .delete, primary_key := ooiC9.primary_key, value := some ooiC9,
          client_id := "orgA" } [tC9a, tC9b] =
      ([tC9a, tC9b].map (fun u =>
        if deleteFilter ooiC9.primary_key u then { u with status := TaskStatus.cancelled }
        else u), []) :=
  boefje_delete_mutation_cancels envC9 ooiC9 "orgA" [tC9a, tC9b] (by decide)

/-- **C10.** A mutation whose value is null is a no-op for every operation
kind, DELETE included: the store is unchanged and no candidate tasks are
produced (the null check precedes the DELETE branch). -/
theorem boefje_null_mutation_noop (env : MutationEnv) (op : MutationOperationType)
    (pk : String) (cid : String) (store : List Task) :
    process_mutations env
        { operation := op, primary_key := pk, value := none, client_id := cid } store =
      (store, []) := rfl

/-! ## Claim theorems: rescheduling -/

theorem fetchOOIs_none (env : ReschedEnv) :
    ∀ (l : List (String × List String)),
      (∃ p ∈ l, env.octopoes p.1 p.2 = .error ()) → fetchOOIs env l = none := by
  intro l
  induction l with
  | nil =>
    rintro ⟨p, hp, _⟩
    simp at hp
  | cons a l ih =>
    rintro ⟨p, hp, herr⟩
    unfold fetchOOIs
    rcases List.mem_cons.mp hp with rfl | hp'
    · rw [herr]
    · cases hh : env.octopoes a.1 a.2 with
      | error e => rfl
      | ok oois =>
        rw [ih ⟨p, hp', herr⟩]
        rfl

/-- **C6, counterexample.**  With two due schedules in organisations A and
B and a read-timeout only on A's octopoes fetch, the cycle produces no
action at all — B's schedule is not processed — whereas with a healthy
octopoes both schedules yield a rebuilt task, so B's schedule was
processable and only the timeout killed it.  This contradicts the claim
that the timeout aborts only A's schedules. -/
theorem boefje_resched_timeout_counterexample :
    process_rescheduling envC6t [sC6a, sC6b] = [] ∧
    process_rescheduling envC6ok [sC6a, sC6b] =
      [.pushTask { id := "s1-t", boefje := { id := "bf6", name := "bf6" },
                   input_ooi := some "oA", organization := "orgA",
                   deduplication_key := none },
       .pushTask { id := "s2-t", boefje := { id := "bf6", name := "bf6" },
                   input_ooi := some "oB", organization := "orgB",
                   deduplication_key := none }] := by
  constructor
  · decide
  · decide

/-- **C6, amended.**  A read-timeout from the object-graph service while
fetching any organisation's target objects aborts the whole rescheduling
cycle: no schedule of any organisation is processed in that cycle. -/
theorem boefje_resched_timeout_aborts_cycle (env : ReschedEnv) (schedules : List Schedule)
    (h : ∃ p ∈ collectRefs schedules, env.octopoes p.1 p.2 = .error ()) :
    process_rescheduling env schedules = [] := by
  unfold process_rescheduling
  by_cases hemp : schedules.isEmpty
  · rw [if_pos hemp]
  · rw [if_neg hemp, fetchOOIs_none env _ h]

/-- Witness for the amended C6. -/
theorem boefje_resched_timeout_aborts_cycle_witness :
    process_rescheduling envC6t [sC6a, sC6b] = [] :=
  boefje_resched_timeout_aborts_cycle envC6t [sC6a, sC6b]
    ⟨("orgA", ["oA"]), by decide, rfl⟩

/-- **C7.** For a due schedule: a missing scanner, a disabled scanner, a
missing target, a target type no longer consumed, or a denied permission
each disables the schedule (enabled flag set to false) and emits no task;
a wrong plugin type is skipped without disabling; the checks are applied
in that order, and the target checks only apply when the schedule's task
references a target. -/
theorem boefje_rescheduling_checks (kat : String → String → Option Plugin)
    (lookup : String → String → Option OOI) (fid : Uuid) (s : Schedule) :
    (kat s.data.boefje.id s.organisation = none →
      processSchedule kat lookup fid s = .disableSchedule { s with enabled := false }) ∧
    (∀ p, kat s.data.boefje.id s.organisation = some p → p.enabled = false →
      processSchedule kat lookup fid s = .disableSchedule { s with enabled := false }) ∧
    (∀ p, kat s.data.boefje.id s.organisation = some p → p.enabled = true →
      p.type ≠ "boefje" →
      processSchedule kat lookup fid s = .skipWrongType s) ∧
    (∀ p, kat s.data.boefje.id s.organisation = some p → p.enabled = true →
      p.type = "boefje" → s.data.input_ooi = none →
      processSchedule kat lookup fid s =
        .pushTask { id := fid, boefje := mkBoefje p, input_ooi := none,
                    organization := s.organisation, deduplication_key := none }) ∧
    (∀ p pk, kat s.data.boefje.id s.organisation = some p → p.enabled = true →
      p.type = "boefje" → s.data.input_ooi = some pk →
      lookup s.data.organization pk = none →
      processSchedule kat lookup fid s = .disableSchedule { s with enabled := false }) ∧
    (∀ p pk ooi, kat s.data.boefje.id s.organisation = some p → p.enabled = true →
      p.type = "boefje" → s.data.input_ooi = some pk →
      lookup s.data.organization pk = some ooi → ¬ (ooi.object_type ∈ p.consumes) →
      processSchedule kat lookup fid s = .disableSchedule { s with enabled := false }) ∧
    (∀ p pk ooi, kat s.data.boefje.id s.organisation = some p → p.enabled = true →
      p.type = "boefje" → s.data.input_ooi = some pk →
      lookup s.data.organization pk = some ooi → ooi.object_type ∈ p.consumes →
      has_boefje_permission_to_run p (some ooi) = false →
      processSchedule kat lookup fid s = .disableSchedule { s with enabled := false }) ∧
    (∀ p pk ooi, kat s.data.boefje.id s.organisation = some p → p.enabled = true →
      p.type = "boefje" → s.data.input_ooi = some pk →
      lookup s.data.organization pk = some ooi → ooi.object_type ∈ p.consumes →
      has_boefje_permission_to_run p (some ooi) = true →
      processSchedule kat lookup fid s =
        .pushTask { id := fid, boefje := mkBoefje p, input_ooi := some ooi.primary_key,
                    organization := s.organisation, deduplication_key := none }) := by
  refine ⟨?_, ?_, ?_, ?_, ?_, ?_, ?_, ?_⟩
  · intro h
    unfold processSchedule
    dsimp only
    rw [h]
  · intro p hp he
    unfold processSchedule
    dsimp only
    rw [hp]
    dsimp only
    rw [if_pos he]
  · intro p hp he ht
    unfold processSchedule
    dsimp only
    rw [hp]
    dsimp only
    rw [if_neg (by simp [he]), if_pos ht]
  · intro p hp he ht hio
    unfold processSchedule
    dsimp only
    rw [hp]
    dsimp only
    rw [if_neg (by simp [he]), if_neg (by simp [ht]), hio]
  · intro p pk hp he ht hio hlk
    unfold processSchedule
    dsimp only
    rw [hp]
    dsimp only
    rw [if_neg (by simp [he]), if_neg (by simp [ht]), hio]
    dsimp only
    rw [hlk]
  · intro p pk ooi hp he ht hio hlk hcons
    unfold processSchedule
    dsimp only
    rw [hp]
    dsimp only
    rw [if_neg (by simp [he]), if_neg (by simp [ht]), hio]
    dsimp only
    rw [hlk]
    dsimp only
    rw [if_pos hcons]
  · intro p pk ooi hp he ht hio hlk hcons hperm
    unfold processSchedule
    dsimp only
    rw [hp]
    dsimp only
    rw [if_neg (by simp [he]), if_neg (by simp [ht]), hio]
    dsimp only
    rw [hlk]
    dsimp only
    rw [if_neg (by simp [hcons]), if_pos hperm]
  · intro p pk ooi hp he ht hio hlk hcons hperm
    unfold processSchedule
    dsimp only
    rw [hp]
    dsimp only
    rw [if_neg (by simp [he]), if_neg (by simp [ht]), hio]
    dsimp only
    rw [hlk]
    dsimp only
    rw [if_neg (by simp [hcons]), if_neg (by simp [hperm])]

/-- Witness for C7: a schedule whose scanner is gone is disabled, and a
fully healthy schedule is rebuilt into a task. -/
theorem boefje_rescheduling_checks_witness :
    processSchedule (fun _ _ => none) (fun _ _ => some ooiC6a) "w" sC7 =
      .disableSchedule { sC7 with enabled := false } ∧
    processSchedule (fun _ _ => some plugin6) (fun _ _ => some ooiC6a) "w" sC7 =
      .pushTask { id := "w", boefje := mkBoefje plugin6, input_ooi := some "oA",
                  organization := "orgA", deduplication_key := none } :=
  ⟨(boefje_rescheduling_checks (fun _ _ => none) (fun _ _ => some ooiC6a) "w" sC7).1 rfl,
   (boefje_rescheduling_checks (fun _ _ => some plugin6) (fun _ _ => some ooiC6a) "w"
      sC7).2.2.2.2.2.2.2 plugin6 "oA" ooiC6a rfl rfl rfl rfl rfl (by decide) (by decide)⟩
